import Mathlib

/-!
Shallow embedding of the position-management / risk-control engine
(`src/portfolio_manager.py`, `src/live_trader.py`, `src/utils.py`).

Money amounts (P&L, prices, spreads) and time durations are modelled as
rationals (`ℚ`); the Python code uses floats but every comparison the
specification talks about is an order comparison that the rational model
reproduces exactly at the inputs of interest.  Broker tickets are `Nat`.

The repository contains two independent implementations of the closure
rules and of the snapshot sync:

* `PortfolioManager._check_position_for_closure` /
  `PortfolioManager.update_portfolio_state` (portfolio_manager.py), and
* `LiveTrader.check_and_close_positions` /
  `LiveTrader.update_open_positions_pnl` (live_trader.py).

Both are embedded below, with `pm`-prefixed definitions for the former and
`lt`-prefixed definitions for the latter.
-/

/-- Closure reasons produced by `PortfolioManager._check_position_for_closure`
(portfolio_manager.py lines 101-137). -/
inductive PMReason where
  | profitTarget
  | stopLoss
  | timeExit
  | trailingStop
deriving DecidableEq, Repr

/-- Closure-rule configuration read in `PortfolioManager.__init__`
(portfolio_manager.py lines 28-33): profit target, stop loss,
max position duration (hours), trailing stop enable/trigger/distance. -/
structure PMConfig where
  profit_target : ℚ
  stop_loss : ℚ
  max_position_duration_hours : ℚ
  enable_trailing_stop : Bool
  trailing_stop_trigger_pnl : ℚ
  trailing_stop_distance_pnl : ℚ
deriving DecidableEq, Repr

/-- The per-position state `_check_position_for_closure` reads: current P&L
(`position['profit']`), the position age in hours
(`(current_time_utc - open_time).total_seconds() / 3600`), and the tracked
`peak_pnl` for the ticket. -/
structure PMPosition where
  pnl : ℚ
  ageHours : ℚ
  peak_pnl : ℚ
deriving DecidableEq, Repr

/-- `PortfolioManager._check_position_for_closure` (portfolio_manager.py
lines 101-137).  Rules are evaluated in source order, each `return`ing on a
match: 1. profit target (`pnl >= self.profit_target`), 2. stop loss
(`pnl <= self.stop_loss`), 3. time-based exit
(`duration_hours >= self.max_position_duration_hours`), 4. trailing stop
(nested: enabled, then `peak_pnl >= trigger`, then
`pnl <= peak_pnl - distance`). -/
def pmCheckClosure (c : PMConfig) (p : PMPosition) : Option PMReason :=
  if p.pnl ≥ c.profit_target then some .profitTarget
  else if p.pnl ≤ c.stop_loss then some .stopLoss
  else if p.ageHours ≥ c.max_position_duration_hours then some .timeExit
  else if c.enable_trailing_stop then
    if p.peak_pnl ≥ c.trailing_stop_trigger_pnl then
      if p.pnl ≤ p.peak_pnl - c.trailing_stop_distance_pnl then some .trailingStop
      else none
    else none
  else none

/-- Closure reasons produced by `LiveTrader.check_and_close_positions`
(live_trader.py lines 193-233). -/
inductive LTReason where
  | takeProfit
  | stopLoss
  | timeExit
  | trailingStop
deriving DecidableEq, Repr

/-- The per-position state `check_and_close_positions` reads from an
in-memory position dict: `pnl`, age in hours since `timestamp`, and
`peak_pnl`. -/
structure LTPosition where
  pnl : ℚ
  ageHours : ℚ
  peak_pnl : ℚ
deriving DecidableEq, Repr

/-- The per-position body of `LiveTrader.check_and_close_positions`
(live_trader.py lines 201-226).  Thresholds are hard-coded in the source:
take profit `pnl > 75`, stop loss `pnl < -50`, time exit
`position_age > timedelta(hours=4)`, trailing stop
`peak_pnl > 30 and pnl < peak_pnl * 0.7`.  Rules 1 and 2 form one
`if/elif`; rule 3 is a separate `if` that overwrites `close_reason`; rule 4
is a separate `if/elif` that first updates `peak_pnl` when
`pnl > peak_pnl` and otherwise may overwrite `close_reason` again.
Returns the final `close_reason` together with the (possibly raised)
`peak_pnl`. -/
def ltCloseReason (p : LTPosition) : Option LTReason × ℚ :=
  let r1 : Option LTReason :=
    if p.pnl > 75 then some .takeProfit
    else if p.pnl < -50 then some .stopLoss
    else none
  let r2 : Option LTReason :=
    if p.ageHours > 4 then some .timeExit
    else r1
  if p.pnl > p.peak_pnl then (r2, p.pnl)
  else if p.peak_pnl > 30 ∧ p.pnl < p.peak_pnl * (7/10) then (some .trailingStop, p.peak_pnl)
  else (r2, p.peak_pnl)

/-- One row of the broker position snapshot
(`mt5.positions_get()` / `portfolio_manager.get_positions()`): the ticket and
the current profit are the fields the sync logic branches on. -/
structure SnapPos where
  ticket : Nat
  profit : ℚ
deriving DecidableEq, Repr

/-- Lookup in the `PortfolioManager.open_positions` dict, projected to the
`peak_pnl` field (the field the peak-P&L claims constrain). -/
def lookupPeak : List (Nat × ℚ) → Nat → Option ℚ
  | [], _ => none
  | (k, v) :: rest, t => if k = t then some v else lookupPeak rest t

/-- One iteration of the snapshot loop in
`PortfolioManager.update_portfolio_state` (portfolio_manager.py lines 63-89):
a ticket already tracked gets `peak_pnl = max(existing peak, profit)`, a new
ticket is inserted with `peak_pnl` initialized to `profit`. -/
def pmSyncStep (m : List (Nat × ℚ)) (s : SnapPos) : List (Nat × ℚ) :=
  match lookupPeak m s.ticket with
  | some _ => m.map (fun e => if e.1 = s.ticket then (e.1, max e.2 s.profit) else e)
  | none => m ++ [(s.ticket, s.profit)]

/-- `PortfolioManager.update_portfolio_state` restricted to the
`open_positions` tracker (portfolio_manager.py lines 49-96): fold the
snapshot through `pmSyncStep`, then delete every tracked ticket that is
absent from the snapshot (`closed_tickets` cleanup, lines 91-96; the deleted
entries are not archived anywhere). -/
def pmSync (m : List (Nat × ℚ)) (snap : List SnapPos) : List (Nat × ℚ) :=
  (snap.foldl pmSyncStep m).filter (fun e => decide (e.1 ∈ snap.map SnapPos.ticket))

/-- An entry of `LiveTrader.open_positions`, restricted to the fields the
sync and archive claims constrain. -/
structure LTRecord where
  ticket : Nat
  pnl : ℚ
  peak_pnl : ℚ
deriving DecidableEq, Repr

/-- `next((p for p in self.open_positions if p['ticket'] == ...), None)`
(live_trader.py line 154). -/
def ltFind (l : List LTRecord) (t : Nat) : Option LTRecord :=
  l.find? (fun p => p.ticket == t)

/-- Result of `LiveTrader.update_open_positions_pnl`: the new
`open_positions` list, the records appended to `closed_trades` during this
sync, and the amount added to `realized_pnl`. -/
structure LTSyncResult where
  openPos : List LTRecord
  closedAppend : List LTRecord
  realizedDelta : ℚ
deriving DecidableEq, Repr

/-- `LiveTrader.update_open_positions_pnl` (live_trader.py lines 138-191).
When the broker snapshot is `None` or empty the method clears
`open_positions` and returns at once — nothing is archived and
`realized_pnl` is untouched (lines 143-147).  Otherwise it rebuilds
`open_positions` from the snapshot (an already-tracked ticket keeps its
record, with `pnl` refreshed and `peak_pnl` carried over; a new ticket gets
`peak_pnl` initialized to its profit), and every in-memory record whose
ticket is absent from the snapshot is appended to `closed_trades` with its
last `pnl` added to `realized_pnl` (lines 179-186).
`ltSyncRow` is the body of the rebuild loop (lines 153-177) for one snapshot
row, and `ltSync` the whole method. -/
def ltSyncRow (old : List LTRecord) (s : SnapPos) : LTRecord :=
  match ltFind old s.ticket with
  | some p => ⟨s.ticket, s.profit, p.peak_pnl⟩
  | none => ⟨s.ticket, s.profit, s.profit⟩

def ltSync (old : List LTRecord) (snap : List SnapPos) : LTSyncResult :=
  if snap.isEmpty then ⟨[], [], 0⟩
  else
    let mt5Tickets := snap.map SnapPos.ticket
    let synced := snap.map (ltSyncRow old)
    let cl := old.foldl (fun acc p =>
      if decide (p.ticket ∈ mt5Tickets) then acc
      else (acc.1 ++ [p], acc.2 + p.pnl)) ([], 0)
    ⟨synced, cl.1, cl.2⟩

/-- The decision-logic steps of `LiveTrader.run_main_trading_cycle` that the
equity-stop claim orders (live_trader.py lines 342-548). -/
inductive CycleEvent where
  | reinforcementAnalysis
  | closeInstruction (ticket : Nat)
  | sessionEndCheck
  | positionAnalysisLoop
  | agentWorkflow
  | tradeDispatch
deriving DecidableEq, Repr

/-- Trace of decision steps in `LiveTrader.run_main_trading_cycle` from the
portfolio-management block onward (live_trader.py lines 342-548), given the
open tickets, whether `mt5.account_info()` returned data (`accountOk`),
whether `ufo_engine.check_portfolio_equity_stop` reported a breach
(`breached` — the predicate itself lives in ufo_trading_engine.py, outside
the sources; only its boolean outcome matters here) and whether
`should_close_for_session_end` fired.  Source order: when positions exist,
`analyze_positions_for_reinforcement()` is called first (line 348), then the
equity stop is checked (lines 350-361, closing every position and returning
on a breach), then the session-end check (lines 363-370), then the
per-position UFO loop (lines 372-391), then the decision-agent workflow and
trade dispatch (lines 393-548). -/
def decisionPhaseTrace (openTickets : List Nat) (accountOk breached sessionEnd : Bool) :
    List CycleEvent :=
  if openTickets.isEmpty then [CycleEvent.agentWorkflow, CycleEvent.tradeDispatch]
  else
    CycleEvent.reinforcementAnalysis ::
      (if accountOk && breached then openTickets.map CycleEvent.closeInstruction
       else CycleEvent.sessionEndCheck ::
         (if sessionEnd then openTickets.map CycleEvent.closeInstruction
          else CycleEvent.positionAnalysisLoop ::
            [CycleEvent.agentWorkflow, CycleEvent.tradeDispatch]))

/-- Order side, `direction == 'BUY'` / `'SELL'` in the entry-price code. -/
inductive Direction where
  | buy
  | sell
deriving DecidableEq, Repr

/-- The final-price computation of `LiveTrader.calculate_ufo_entry_price`
(live_trader.py lines 933-950): `optimal_price = base_price +
price_adjustment` (base = ask for BUY, bid for SELL), then the sanity
clamps — BUY: `min` against `ask + spread*1.5` then `max` against
`bid - spread*0.5`; SELL: `max` against `bid - spread*1.5` then `min`
against `ask + spread*0.5`.  The `price_adjustment` accumulated from
strength/oscillation/uncertainty signals (lines 866-931) enters as the
arbitrary rational `adj`, so the clamp is verified for every possible
combination of adjustments. -/
def ufoEntryPrice (d : Direction) (bid ask spread adj : ℚ) : ℚ :=
  let base := match d with | .buy => ask | .sell => bid
  let optimal := base + adj
  match d with
  | .buy => max (min optimal (ask + spread * (3/2))) (bid - spread * (1/2))
  | .sell => min (max optimal (bid - spread * (3/2))) (ask + spread * (1/2))

/-- The final-price computation of
`LiveTrader.calculate_ufo_optimized_entry_price` (live_trader.py lines
811-822): `optimal_price = base_price + price_adjustment`, then BUY is
capped at `ask + spread*2` and SELL floored at `bid - spread*2`; the
reinforcement-type adjustment (lines 782-809) enters as `adj`. -/
def ufoOptimizedEntryPrice (d : Direction) (bid ask spread adj : ℚ) : ℚ :=
  let base := match d with | .buy => ask | .sell => bid
  let optimal := base + adj
  match d with
  | .buy => min optimal (ask + spread * 2)
  | .sell => max optimal (bid - spread * 2)

/-- The sleep computation at the bottom of `LiveTrader.run` (live_trader.py
lines 585-596): with continuous monitoring enabled and open positions
present, `sleep = min(position_update_frequency_seconds, max(1,
time_to_next_cycle))`; otherwise `sleep = min(60, max(1,
time_to_next_cycle))`. -/
def sleepDuration (monitoring : Bool) (monPeriodSec timeToNextCycle : ℚ) : ℚ :=
  if monitoring then min monPeriodSec (max 1 timeToNextCycle)
  else min 60 (max 1 timeToNextCycle)

/-- One trade action extracted from the decision agent's payload
(live_trader.py lines 469-498): symbol, direction and volume. -/
structure TradeAction where
  symbol : List Char
  direction : List Char
  volume : ℚ
deriving DecidableEq, Repr

/-- The two brace characters, by code point. -/
def braceOpen : Char := Char.ofNat 123

def braceClose : Char := Char.ofNat 125

/-- `re.search` of the brace-delimited block with DOTALL (live_trader.py
line 462): the greedy pattern matches from the first opening brace to the
last closing brace of the payload, and there is no match when no closing
brace follows an opening brace. -/
def extractJson (s : List Char) : Option (List Char) :=
  let rest := s.dropWhile (fun c => decide (c ≠ braceOpen))
  match rest with
  | [] => none
  | _ :: tail =>
    if braceClose ∈ tail then
      some ((rest.reverse.dropWhile (fun c => decide (c ≠ braceClose))).reverse)
    else none

/-- Observable outcome of the trade-execution block: how many trade
dispatches were attempted, whether the problem was logged via
`logging.error`, and whether an exception escaped to the caller. -/
structure ExecOutcome where
  executed : Nat
  errorLogged : Bool
  raised : Bool
deriving DecidableEq, Repr

/-- The payload-parsing and execution block of
`LiveTrader.run_main_trading_cycle` (live_trader.py lines 459-548).
`jsonParse` stands for `json.loads` composed with the comment/trailing-comma
cleanup and the actions-list extraction (lines 465-482); it is kept abstract
because `json.loads` is a Python-library routine, with `none` standing for a
raised `JSONDecodeError` (or a missing action list).  When the brace search
finds no block, the `if json_match:` body is skipped silently — nothing is
executed, logged or raised.  When parsing raises, the `except` at lines
545-548 logs the error and swallows it.  Otherwise every action in the list
is dispatched (per-action failures are caught inside the loop, lines
490-532). -/
def executeTradePlan (jsonParse : List Char → Option (List TradeAction))
    (payload : List Char) : ExecOutcome :=
  match extractJson payload with
  | none => ⟨0, false, false⟩
  | some js =>
    match jsonParse js with
    | none => ⟨0, true, false⟩
    | some actions => ⟨actions.length, false, false⟩

/-- Python `str.strip()` on the character list: drop whitespace from the
right end, then from the left end. -/
def pyStrip (l : List Char) : List Char :=
  ((l.reverse.dropWhile (fun c => c.isWhitespace)).reverse).dropWhile
    (fun c => c.isWhitespace)

/-- `raw_value.split('#')[0].strip()` (utils.py line 24): everything after
the first `#` is removed, then surrounding whitespace is stripped. -/
def stripComment (raw : List Char) : List Char :=
  pyStrip (raw.takeWhile (fun c => decide (c ≠ '#')))

/-- Decimal value of a digit string. -/
def digitsVal (l : List Char) : Nat :=
  l.foldl (fun a c => a * 10 + (c.toNat - 48)) 0

/-- A non-empty all-digit string. -/
def parseDigits (l : List Char) : Option Nat :=
  if l ≠ [] ∧ l.all (fun c => c.isDigit) then some (digitsVal l) else none

/-- Model of Python `int()` applied to the already-stripped string: an
optional sign followed by at least one digit.  (Underscore separators are
not modelled; the claim only depends on the failure branch returning the
default.) -/
def pyParseInt (l : List Char) : Option Int :=
  match l with
  | [] => none
  | c :: rest =>
    if c = '+' then (parseDigits rest).map (fun n => (n : Int))
    else if c = '-' then (parseDigits rest).map (fun n => -(n : Int))
    else (parseDigits l).map (fun n => (n : Int))

/-- Unsigned decimal literal, with an optional fractional part and at least
one digit overall. -/
def parseDecimal (l : List Char) : Option ℚ :=
  let intPart := l.takeWhile (fun c => c.isDigit)
  let rest := l.drop intPart.length
  match rest with
  | [] => if intPart ≠ [] then some ((digitsVal intPart : ℚ)) else none
  | c :: frac =>
    if c = '.' ∧ frac.all (fun c => c.isDigit) ∧ (intPart ≠ [] ∨ frac ≠ []) then
      some ((digitsVal intPart : ℚ) + (digitsVal frac : ℚ) / ((10 : ℚ) ^ frac.length))
    else none

/-- Model of Python `float()` on the already-stripped string: optional sign
and a decimal literal.  (Exponents, `inf`/`nan` and underscores are not
modelled; the claim only depends on the failure branch returning the
default.) -/
def pyParseFloat (l : List Char) : Option ℚ :=
  match l with
  | [] => none
  | c :: rest =>
    if c = '+' then parseDecimal rest
    else if c = '-' then (parseDecimal rest).map (fun q => -q)
    else parseDecimal l

/-- `str(default)` for a boolean default. -/
def pyStrBool (b : Bool) : List Char :=
  if b then "True".toList else "False".toList

/-- `str(default)` for an integer default. -/
def pyStrInt (d : Int) : List Char := (toString d).toList

/-- `str(default)` for a float default; it is only used as the fallback raw
string when the key is missing (Python renders e.g. `75.0` where this model
renders `75`; no claim depends on the float fallback's spelling). -/
def pyStrFloat (d : ℚ) : List Char := (toString d).toList

/-- `get_config_value` (utils.py lines 1-43) for a `bool` default: the
cleaned, lowercased string is compared against
`['true', 'yes', '1', 'on', 'enabled']`; this branch cannot raise, so the
`except` path is unreachable.  The config itself is a partial map from
section and key to the raw string, and `config.get(section, key,
fallback=str(default))` is the `getD`. -/
def getConfigValueBool (cfg : List Char → List Char → Option (List Char))
    (sec key : List Char) (default : Bool) : Bool :=
  let raw := (cfg sec key).getD (pyStrBool default)
  let clean := stripComment raw
  decide ((clean.map Char.toLower) ∈
    ["true".toList, "yes".toList, "1".toList, "on".toList, "enabled".toList])

/-- `get_config_value` for an `int` default: `int(clean_value)`, with the
`except (ValueError, TypeError)` branch returning the default. -/
def getConfigValueInt (cfg : List Char → List Char → Option (List Char))
    (sec key : List Char) (default : Int) : Int :=
  let raw := (cfg sec key).getD (pyStrInt default)
  match pyParseInt (stripComment raw) with
  | some n => n
  | none => default

/-- `get_config_value` for a `float` default: `float(clean_value)`, with the
`except` branch returning the default. -/
def getConfigValueFloat (cfg : List Char → List Char → Option (List Char))
    (sec key : List Char) (default : ℚ) : ℚ :=
  let raw := (cfg sec key).getD (pyStrFloat default)
  match pyParseFloat (stripComment raw) with
  | some q => q
  | none => default

/-- `get_config_value` for a string default: the cleaned string itself is
returned (the `else` branch of the type dispatch). -/
def getConfigValueStr (cfg : List Char → List Char → Option (List Char))
    (sec key : List Char) (default : List Char) : List Char :=
  stripComment ((cfg sec key).getD default)

/-- Flattened characterization of `pmCheckClosure`: the nested `if`s are the
priority chain profit target → stop loss → time exit → trailing stop. -/
lemma pmCheckClosure_eq (c : PMConfig) (p : PMPosition) :
    pmCheckClosure c p =
      if c.profit_target ≤ p.pnl then some PMReason.profitTarget
      else if p.pnl ≤ c.stop_loss then some PMReason.stopLoss
      else if c.max_position_duration_hours ≤ p.ageHours then some PMReason.timeExit
      else if c.enable_trailing_stop = true ∧ c.trailing_stop_trigger_pnl ≤ p.peak_pnl ∧
          p.pnl ≤ p.peak_pnl - c.trailing_stop_distance_pnl then some PMReason.trailingStop
      else none := by
  simp only [pmCheckClosure, ge_iff_le]
  split_ifs <;> tauto

/-- The closure reason `LiveTrader.check_and_close_positions` ends up with for
one position: the trailing-stop branch, when its guard holds, overwrites
whatever the earlier rules set; otherwise the time exit overwrites the
take-profit / stop-loss reason. -/
lemma ltCloseReason_fst (p : LTPosition) :
    (ltCloseReason p).1 =
      if p.pnl ≤ p.peak_pnl ∧ 30 < p.peak_pnl ∧ p.pnl < p.peak_pnl * (7/10) then
        some LTReason.trailingStop
      else if 4 < p.ageHours then some LTReason.timeExit
      else if 75 < p.pnl then some LTReason.takeProfit
      else if p.pnl < -50 then some LTReason.stopLoss
      else none := by
  simp only [ltCloseReason, gt_iff_lt, not_lt]
  split_ifs <;> simp_all <;> linarith

lemma lookupPeak_append_some {m : List (Nat × ℚ)} {t : Nat} {v : ℚ}
    (m2 : List (Nat × ℚ)) (h : lookupPeak m t = some v) :
    lookupPeak (m ++ m2) t = some v := by
  induction m with
  | nil => simp [lookupPeak] at h
  | cons e rest ih =>
    rw [lookupPeak] at h
    rw [List.cons_append, lookupPeak]
    split_ifs at h ⊢ with h1
    · exact h
    · exact ih h

lemma lookupPeak_append_none {m : List (Nat × ℚ)} {t : Nat}
    (m2 : List (Nat × ℚ)) (h : lookupPeak m t = none) :
    lookupPeak (m ++ m2) t = lookupPeak m2 t := by
  induction m with
  | nil => simp
  | cons e rest ih =>
    rw [lookupPeak] at h
    rw [List.cons_append, lookupPeak]
    split_ifs at h ⊢ with h1
    · exact ih h

lemma lookupPeak_map_max (m : List (Nat × ℚ)) (s : Nat) (w : ℚ) (t : Nat) :
    lookupPeak (m.map (fun e => if e.1 = s then (e.1, max e.2 w) else e)) t =
      if t = s then (lookupPeak m t).map (fun x => max x w) else lookupPeak m t := by
  induction m with
  | nil => simp [lookupPeak]
  | cons e rest ih =>
    rw [List.map_cons, lookupPeak, lookupPeak]
    by_cases h1 : e.1 = s
    · by_cases h2 : t = s
      · simp [h1, h2, ih]
      · have het : ¬ e.1 = t := by rw [h1]; exact fun hc => h2 hc.symm
        have hst : ¬ s = t := fun hc => h2 hc.symm
        simp [h1, het, hst, ih, h2]
    · by_cases h3 : e.1 = t
      · have h2 : ¬ t = s := fun hc => h1 (h3.trans hc)
        simp [h1, h3, h2]
      · simp [h1, h3, ih]

lemma pmSyncStep_of_found {m : List (Nat × ℚ)} {s : SnapPos} {v : ℚ}
    (hs : lookupPeak m s.ticket = some v) :
    pmSyncStep m s = m.map (fun e => if e.1 = s.ticket then (e.1, max e.2 s.profit) else e) := by
  rw [pmSyncStep, hs]

lemma pmSyncStep_of_new {m : List (Nat × ℚ)} {s : SnapPos}
    (hs : lookupPeak m s.ticket = none) :
    pmSyncStep m s = m ++ [(s.ticket, s.profit)] := by
  rw [pmSyncStep, hs]

lemma pmSyncStep_mono {m : List (Nat × ℚ)} {t : Nat} {pk : ℚ}
    (s : SnapPos) (h : lookupPeak m t = some pk) :
    ∃ pk2, lookupPeak (pmSyncStep m s) t = some pk2 ∧ pk ≤ pk2 := by
  cases hs : lookupPeak m s.ticket with
  | some v =>
    rw [pmSyncStep_of_found hs, lookupPeak_map_max]
    by_cases ht : t = s.ticket
    · subst ht
      refine ⟨max pk s.profit, ?_, le_max_left _ _⟩
      rw [if_pos rfl, h]
      rfl
    · exact ⟨pk, by rw [if_neg ht, h], le_refl _⟩
  | none =>
    rw [pmSyncStep_of_new hs]
    exact ⟨pk, lookupPeak_append_some _ h, le_refl _⟩

lemma pmSyncStep_ne {m : List (Nat × ℚ)} {t : Nat} (s : SnapPos)
    (hne : s.ticket ≠ t) : lookupPeak (pmSyncStep m s) t = lookupPeak m t := by
  have hts : ¬ t = s.ticket := fun hc => hne hc.symm
  cases hs : lookupPeak m s.ticket with
  | some v =>
    rw [pmSyncStep_of_found hs, lookupPeak_map_max, if_neg hts]
  | none =>
    rw [pmSyncStep_of_new hs]
    cases hm : lookupPeak m t with
    | some v => exact lookupPeak_append_some _ hm
    | none =>
      rw [lookupPeak_append_none _ hm]
      simp [lookupPeak, hne]

lemma pmFold_mono {snap : List SnapPos} :
    ∀ {m : List (Nat × ℚ)} {t : Nat} {pk : ℚ}, lookupPeak m t = some pk →
      ∃ pk2, lookupPeak (snap.foldl pmSyncStep m) t = some pk2 ∧ pk ≤ pk2 := by
  induction snap with
  | nil => exact fun h => ⟨_, h, le_refl _⟩
  | cons s rest ih =>
    intro m t pk h
    obtain ⟨pk1, h1, hle1⟩ := pmSyncStep_mono s h
    obtain ⟨pk2, h2, hle2⟩ := ih h1
    exact ⟨pk2, h2, le_trans hle1 hle2⟩

lemma pmFold_ne {snap : List SnapPos} :
    ∀ {m : List (Nat × ℚ)} {t : Nat}, (∀ s ∈ snap, SnapPos.ticket s ≠ t) →
      lookupPeak (snap.foldl pmSyncStep m) t = lookupPeak m t := by
  induction snap with
  | nil => intro m t _; rfl
  | cons s rest ih =>
    intro m t h
    rw [List.foldl_cons, ih (fun s2 hs2 => h s2 (List.mem_cons_of_mem _ hs2)),
      pmSyncStep_ne s (h s (List.mem_cons_self _ _))]

lemma lookupPeak_filter_mem (m : List (Nat × ℚ)) (ts : List Nat) (t : Nat)
    (h : t ∈ ts) :
    lookupPeak (m.filter (fun e => decide (e.1 ∈ ts))) t = lookupPeak m t := by
  induction m with
  | nil => rfl
  | cons e rest ih =>
    rw [List.filter_cons]
    by_cases h1 : e.1 = t
    · rw [if_pos (by rw [h1]; exact decide_eq_true h), lookupPeak, if_pos h1, lookupPeak,
        if_pos h1]
    · by_cases h3 : e.1 ∈ ts
      · rw [if_pos (decide_eq_true h3), lookupPeak, if_neg h1, lookupPeak, if_neg h1, ih]
      · rw [if_neg (by simpa using h3), ih, lookupPeak, if_neg h1]

lemma pmFold_insert {snap : List SnapPos} :
    ∀ {m : List (Nat × ℚ)} {t : Nat}, (snap.map SnapPos.ticket).Nodup →
      lookupPeak m t = none → ∀ s ∈ snap, s.ticket = t →
        lookupPeak (snap.foldl pmSyncStep m) t = some s.profit := by
  induction snap with
  | nil =>
    intro m t _ _ s hs
    simp at hs
  | cons s0 rest ih =>
    intro m t hnd hm s hs hst
    rw [List.map_cons, List.nodup_cons] at hnd
    rw [List.foldl_cons]
    rcases List.mem_cons.1 hs with rfl | hmem
    · have hstep : lookupPeak (pmSyncStep m s) t = some s.profit := by
        rw [pmSyncStep_of_new (by rw [hst]; exact hm), lookupPeak_append_none _ hm]
        simp [lookupPeak, hst]
      have hrest : ∀ s2 ∈ rest, SnapPos.ticket s2 ≠ t := by
        intro s2 h2 hc
        exact hnd.1 (by rw [hst, ← hc]; exact List.mem_map_of_mem _ h2)
      rw [pmFold_ne hrest, hstep]
    · have h0 : SnapPos.ticket s0 ≠ t := by
        intro hc
        exact hnd.1 (by rw [hc, ← hst]; exact List.mem_map_of_mem _ hmem)
      have hm2 : lookupPeak (pmSyncStep m s0) t = none := by
        rw [pmSyncStep_ne s0 h0, hm]
      exact ih hnd.2 hm2 s hmem hst

lemma ltSyncRow_ticket (old : List LTRecord) (s : SnapPos) :
    (ltSyncRow old s).ticket = s.ticket := by
  rw [ltSyncRow]
  cases ltFind old s.ticket <;> rfl

lemma ltSync_of_nonempty (old : List LTRecord) {snap : List SnapPos} (h : snap ≠ []) :
    ltSync old snap =
      ⟨snap.map (ltSyncRow old),
       old.filter (fun p => ! decide (p.ticket ∈ snap.map SnapPos.ticket)),
       ((old.filter (fun p => ! decide (p.ticket ∈ snap.map SnapPos.ticket))).map
         LTRecord.pnl).sum⟩ := by
  have hfold : ∀ (l : List LTRecord) (acc : List LTRecord × ℚ),
      l.foldl (fun acc p =>
        if decide (p.ticket ∈ snap.map SnapPos.ticket) then acc
        else (acc.1 ++ [p], acc.2 + p.pnl)) acc
      = (acc.1 ++ l.filter (fun p => ! decide (p.ticket ∈ snap.map SnapPos.ticket)),
         acc.2 + ((l.filter (fun p => ! decide (p.ticket ∈ snap.map SnapPos.ticket))).map
           LTRecord.pnl).sum) := by
    intro l
    induction l with
    | nil => intro acc; simp
    | cons p rest ihl =>
      intro acc
      rw [List.foldl_cons]
      by_cases hp : p.ticket ∈ snap.map SnapPos.ticket
      · have hb : (! decide (p.ticket ∈ snap.map SnapPos.ticket)) = false := by simp [hp]
        rw [if_pos (by simp [hp]), ihl, List.filter_cons, hb]
        simp only [Bool.false_eq_true, if_false]
      · have hb : (! decide (p.ticket ∈ snap.map SnapPos.ticket)) = true := by simp [hp]
        rw [if_neg (by simp [hp]), ihl, List.filter_cons, hb, if_pos rfl]
        simp only [List.map_cons, List.sum_cons, List.append_assoc, List.singleton_append,
          add_assoc]
  rw [ltSync, if_neg (by simp [List.isEmpty_iff, h])]
  dsimp only
  rw [hfold]
  simp

lemma lt_synced_find_tracked {old : List LTRecord} {t : Nat} {p : LTRecord}
    (hp : ltFind old t = some p) :
    ∀ {snap : List SnapPos}, t ∈ snap.map SnapPos.ticket →
      ∃ q, ltFind (snap.map (ltSyncRow old)) t = some q ∧ q.peak_pnl = p.peak_pnl := by
  intro snap
  induction snap with
  | nil => intro ht; simp at ht
  | cons s rest ih =>
    intro ht
    by_cases hst : s.ticket = t
    · refine ⟨ltSyncRow old s, ?_, ?_⟩
      · rw [List.map_cons, ltFind, List.find?_cons_of_pos]
        simp [ltSyncRow_ticket, hst]
      · rw [ltSyncRow, hst, hp]
    · have ht2 : t ∈ rest.map SnapPos.ticket := by
        rcases List.mem_cons.1 ht with hc | hc
        · exact absurd hc.symm hst
        · exact hc
      obtain ⟨q, hq, hpeak⟩ := ih ht2
      refine ⟨q, ?_, hpeak⟩
      rw [List.map_cons, ltFind, List.find?_cons_of_neg]
      · exact hq
      · simp [ltSyncRow_ticket, hst]

lemma lt_synced_find_new {old : List LTRecord} {t : Nat}
    (hp : ltFind old t = none) :
    ∀ {snap : List SnapPos}, t ∈ snap.map SnapPos.ticket →
      ∃ q, ltFind (snap.map (ltSyncRow old)) t = some q ∧ q.peak_pnl = q.pnl := by
  intro snap
  induction snap with
  | nil => intro ht; simp at ht
  | cons s rest ih =>
    intro ht
    by_cases hst : s.ticket = t
    · refine ⟨ltSyncRow old s, ?_, ?_⟩
      · rw [List.map_cons, ltFind, List.find?_cons_of_pos]
        simp [ltSyncRow_ticket, hst]
      · rw [ltSyncRow, hst, hp]
    · have ht2 : t ∈ rest.map SnapPos.ticket := by
        rcases List.mem_cons.1 ht with hc | hc
        · exact absurd hc.symm hst
        · exact hc
      obtain ⟨q, hq, hpeak⟩ := ih ht2
      refine ⟨q, ?_, hpeak⟩
      rw [List.map_cons, ltFind, List.find?_cons_of_neg]
      · exact hq
      · simp [ltSyncRow_ticket, hst]

lemma countP_ticket_eq_one {old : List LTRecord} {p : LTRecord} :
    (old.map LTRecord.ticket).Nodup → p ∈ old →
      old.countP (fun q => q.ticket == p.ticket) = 1 := by
  induction old with
  | nil => intro _ hp; simp at hp
  | cons a rest ih =>
    intro hnd hp
    rw [List.map_cons, List.nodup_cons] at hnd
    rcases List.mem_cons.1 hp with rfl | hmem
    · have h0 : rest.countP (fun q => q.ticket == p.ticket) = 0 :=
        List.countP_eq_zero.mpr (fun q hq hc =>
          hnd.1 (by
            have : q.ticket = p.ticket := by simpa using hc
            rw [← this]
            exact List.mem_map_of_mem _ hq))
      rw [List.countP_cons, h0]
      simp
    · have hne : a.ticket ≠ p.ticket := fun hc =>
        hnd.1 (by rw [hc]; exact List.mem_map_of_mem _ hmem)
      rw [List.countP_cons, ih hnd.2 hmem]
      simp [hne]

lemma head?_dropWhile_false {α : Type} (p : α → Bool) (l : List α) :
    ∀ c, (l.dropWhile p).head? = some c → p c = false := by
  induction l with
  | nil => intro c hc; simp at hc
  | cons a t ih =>
    intro c hc
    rw [List.dropWhile_cons] at hc
    by_cases h : p a
    · rw [if_pos h] at hc
      exact ih c hc
    · rw [if_neg h] at hc
      simp at hc
      rw [← hc]
      exact Bool.eq_false_iff.mpr h

lemma exists_append_dropWhile {α : Type} (p : α → Bool) (l : List α) :
    ∃ t, t ++ l.dropWhile p = l := by
  induction l with
  | nil => exact ⟨[], rfl⟩
  | cons a tl ih =>
    by_cases h : p a
    · obtain ⟨t, ht⟩ := ih
      exact ⟨a :: t, by rw [List.dropWhile_cons, if_pos h, List.cons_append, ht]⟩
    · exact ⟨[], by rw [List.dropWhile_cons, if_neg h, List.nil_append]⟩

lemma pyStrip_sublist (l : List Char) : (pyStrip l).Sublist l := by
  have h1 : ((l.reverse.dropWhile (fun c => c.isWhitespace)).reverse).Sublist l := by
    have h0 := (List.dropWhile_sublist (fun c : Char => c.isWhitespace)
      (l := l.reverse)).reverse
    rwa [List.reverse_reverse] at h0
  exact (List.dropWhile_sublist _).trans h1

lemma stripComment_sublist (raw : List Char) : (stripComment raw).Sublist raw :=
  (pyStrip_sublist _).trans (List.takeWhile_prefix _).sublist

lemma stripComment_no_hash (raw : List Char) : '#' ∉ stripComment raw := by
  intro hmem
  have h2 : '#' ∈ raw.takeWhile (fun c => decide (c ≠ '#')) :=
    (pyStrip_sublist _).subset hmem
  have h3 := List.mem_takeWhile_imp h2
  simp at h3

lemma stripComment_head (raw : List Char) :
    ∀ c, (stripComment raw).head? = some c → c.isWhitespace = false := by
  intro c hc
  exact head?_dropWhile_false _ _ c hc

lemma stripComment_getLast (raw : List Char) :
    ∀ c, (stripComment raw).getLast? = some c → c.isWhitespace = false := by
  intro c hc
  rw [stripComment, pyStrip] at hc
  obtain ⟨t, ht⟩ := exists_append_dropWhile (fun ch : Char => ch.isWhitespace)
    (((raw.takeWhile (fun ch => decide (ch ≠ '#'))).reverse.dropWhile
      (fun ch => ch.isWhitespace)).reverse)
  have hM : (((raw.takeWhile (fun ch => decide (ch ≠ '#'))).reverse.dropWhile
      (fun ch => ch.isWhitespace)).reverse).getLast? = some c := by
    rw [← ht, List.getLast?_append, hc]
    rfl
  rw [List.getLast?_reverse] at hM
  exact head?_dropWhile_false _ _ c hM

/-- C1: the claim as stated is false for `LiveTrader.check_and_close_positions`.
A position with P&L 80 (satisfying the profit-target condition `pnl > 75`)
whose peak P&L is 120 (so the trailing-stop condition `peak > 30 and
pnl < 0.7 * peak` also holds) is marked for closure with the trailing-stop
reason, not the profit-target reason: the later `if` overwrites the earlier
match. -/
theorem C1_counterexample :
    (75:ℚ) < 80 ∧ (30:ℚ) < 120 ∧ (80:ℚ) < 120 * (7/10) ∧
    (ltCloseReason ⟨80, 1, 120⟩).1 = some LTReason.trailingStop := by
  refine ⟨by norm_num, by norm_num, by norm_num, ?_⟩
  norm_num [ltCloseReason]

/-- C1 (amended): each check produces at most one reason per position.  In
`PortfolioManager._check_position_for_closure` the rules are evaluated in the
fixed priority order and a position meeting the profit target always gets the
profit-target reason; in `LiveTrader.check_and_close_positions` the last
matching rule wins, so a position meeting both the profit-target and the
trailing-stop conditions gets the trailing-stop reason. -/
theorem C1_amended :
    (∀ (c : PMConfig) (p : PMPosition), c.profit_target ≤ p.pnl →
      pmCheckClosure c p = some PMReason.profitTarget) ∧
    (∀ p : LTPosition, p.pnl ≤ p.peak_pnl → 30 < p.peak_pnl →
      p.pnl < p.peak_pnl * (7/10) → (ltCloseReason p).1 = some LTReason.trailingStop) := by
  constructor
  · intro c p h
    rw [pmCheckClosure_eq, if_pos h]
  · intro p h1 h2 h3
    rw [ltCloseReason_fst, if_pos ⟨h1, h2, h3⟩]

/-- C1 witness: the amended theorem applied at concrete positions. -/
theorem C1_witness :
    pmCheckClosure ⟨75, -50, 4, true, 30, 15⟩ ⟨80, 5, 120⟩ = some PMReason.profitTarget ∧
    (ltCloseReason ⟨80, 1, 120⟩).1 = some LTReason.trailingStop :=
  ⟨C1_amended.1 ⟨75, -50, 4, true, 30, 15⟩ ⟨80, 5, 120⟩ (by norm_num),
   C1_amended.2 ⟨80, 1, 120⟩ (by norm_num) (by norm_num) (by norm_num)⟩

/-- C4: the claim as stated is false for `LiveTrader.check_and_close_positions`:
its take-profit comparison is the strict `pos['pnl'] > 75`, so a position whose
P&L exactly equals the $75 target is not closed on that tick (here with age 1h
and peak P&L 75, no other rule fires either). -/
theorem C4_counterexample :
    (75:ℚ) ≥ 75 ∧ (ltCloseReason ⟨75, 1, 75⟩).1 = none :=
  ⟨by norm_num, by norm_num [ltCloseReason]⟩

/-- C4 (amended): in `PortfolioManager._check_position_for_closure` the
profit-target reason is produced exactly when P&L ≥ the configured target
(inclusive boundary); in `LiveTrader.check_and_close_positions` the take-profit
reason requires P&L strictly greater than the hard-coded 75. -/
theorem C4_amended :
    (∀ (c : PMConfig) (p : PMPosition),
      pmCheckClosure c p = some PMReason.profitTarget ↔ c.profit_target ≤ p.pnl) ∧
    (∀ p : LTPosition, (ltCloseReason p).1 = some LTReason.takeProfit → 75 < p.pnl) := by
  constructor
  · intro c p
    rw [pmCheckClosure_eq]
    split_ifs <;> simp_all
  · intro p h
    rw [ltCloseReason_fst] at h
    split_ifs at h <;> simp_all

/-- C4 witness: the amended theorem applied at concrete positions; the
portfolio-manager rule fires at P&L exactly 75 while the live-trader reason
`takeProfit` at P&L 100 certifies 75 < 100. -/
theorem C4_witness :
    pmCheckClosure ⟨75, -50, 4, true, 30, 15⟩ ⟨75, 0, 0⟩ = some PMReason.profitTarget ∧
    (75:ℚ) < 100 :=
  ⟨(C4_amended.1 ⟨75, -50, 4, true, 30, 15⟩ ⟨75, 0, 0⟩).mpr (by norm_num),
   C4_amended.2 ⟨100, 1, 100⟩ (by norm_num [ltCloseReason])⟩

/-- C5: the claim as stated is false for the trailing stop of
`LiveTrader.check_and_close_positions`.  With the configured trigger 30 and
distance 15 the claimed stop level for peak P&L 40 is 25, so P&L 26 must not
fire; but the live-trader rule is `peak > 30 and pnl < 0.7 * peak`
(stop level 28), which does fire at P&L 26. -/
theorem C5_counterexample :
    ¬ ((26:ℚ) ≤ 40 - 15) ∧ (ltCloseReason ⟨26, 1, 40⟩).1 = some LTReason.trailingStop :=
  ⟨by norm_num, by norm_num [ltCloseReason]⟩

/-- C5 (amended): in `PortfolioManager._check_position_for_closure` the
trailing stop behaves exactly as claimed — reached only when no
higher-priority rule fires, gated by the enable flag and peak P&L ≥ the
configured trigger, firing exactly when P&L ≤ peak P&L − the configured
distance.  In `LiveTrader.check_and_close_positions` the trailing stop is
always enabled and fires exactly when P&L ≤ peak P&L, peak P&L > 30 and
P&L < 0.7 × peak P&L (a percentage retrace, not a fixed distance). -/
theorem C5_amended :
    (∀ (c : PMConfig) (p : PMPosition),
      pmCheckClosure c p = some PMReason.trailingStop ↔
        (¬ c.profit_target ≤ p.pnl ∧ ¬ p.pnl ≤ c.stop_loss ∧
         ¬ c.max_position_duration_hours ≤ p.ageHours ∧
         c.enable_trailing_stop = true ∧ c.trailing_stop_trigger_pnl ≤ p.peak_pnl ∧
         p.pnl ≤ p.peak_pnl - c.trailing_stop_distance_pnl)) ∧
    (∀ p : LTPosition,
      (ltCloseReason p).1 = some LTReason.trailingStop ↔
        (p.pnl ≤ p.peak_pnl ∧ 30 < p.peak_pnl ∧ p.pnl < p.peak_pnl * (7/10))) := by
  constructor
  · intro c p
    rw [pmCheckClosure_eq]
    split_ifs <;> simp_all
  · intro p
    rw [ltCloseReason_fst]
    split_ifs <;> simp_all

/-- C2: across one sync, a ticket present both in the tracker and in the
broker snapshot keeps a peak P&L that is at least its previous peak P&L
(`max(existing, profit)` in `PortfolioManager.update_portfolio_state`,
carried over unchanged in `LiveTrader.update_open_positions_pnl`), and a
ticket appearing for the first time has its peak P&L initialized to its
current P&L, in both implementations. -/
theorem C2_peak_monotone :
    (∀ (m : List (Nat × ℚ)) (snap : List SnapPos) (t : Nat) (pk : ℚ),
      lookupPeak m t = some pk → t ∈ snap.map SnapPos.ticket →
        ∃ pk2, lookupPeak (pmSync m snap) t = some pk2 ∧ pk ≤ pk2) ∧
    (∀ (m : List (Nat × ℚ)) (snap : List SnapPos) (s : SnapPos),
      (snap.map SnapPos.ticket).Nodup → lookupPeak m s.ticket = none → s ∈ snap →
        lookupPeak (pmSync m snap) s.ticket = some s.profit) ∧
    (∀ (old : List LTRecord) (snap : List SnapPos) (t : Nat) (p : LTRecord),
      ltFind old t = some p → t ∈ snap.map SnapPos.ticket →
        ∃ q, ltFind (ltSync old snap).openPos t = some q ∧ p.peak_pnl ≤ q.peak_pnl) ∧
    (∀ (old : List LTRecord) (snap : List SnapPos) (t : Nat),
      ltFind old t = none → t ∈ snap.map SnapPos.ticket →
        ∃ q, ltFind (ltSync old snap).openPos t = some q ∧ q.peak_pnl = q.pnl) := by
  refine ⟨?_, ?_, ?_, ?_⟩
  · intro m snap t pk h ht
    obtain ⟨pk2, h2, hle⟩ := pmFold_mono h
    refine ⟨pk2, ?_, hle⟩
    rw [pmSync, lookupPeak_filter_mem _ _ _ ht]
    exact h2
  · intro m snap s hnd hm hs
    rw [pmSync, lookupPeak_filter_mem _ _ _ (List.mem_map_of_mem _ hs)]
    exact pmFold_insert hnd hm s hs rfl
  · intro old snap t p hp ht
    have hne : snap ≠ [] := by rintro rfl; simp at ht
    rw [ltSync_of_nonempty old hne]
    obtain ⟨q, hq, heq⟩ := lt_synced_find_tracked hp ht
    exact ⟨q, hq, le_of_eq heq.symm⟩
  · intro old snap t hp ht
    have hne : snap ≠ [] := by rintro rfl; simp at ht
    rw [ltSync_of_nonempty old hne]
    exact lt_synced_find_new hp ht

/-- C2 witness: the theorem applied to a concrete sync.  In both trackers,
ticket 1 (existing, peak 10, snapshot profit 5) keeps a peak ≥ 10, and
ticket 2 (new, profit 7) is created with peak = current P&L. -/
theorem C2_witness :
    (∃ pk2, lookupPeak (pmSync [(1, 10)] [⟨1, 5⟩, ⟨2, 7⟩]) 1 = some pk2 ∧ (10:ℚ) ≤ pk2) ∧
    lookupPeak (pmSync [(1, 10)] [⟨1, 5⟩, ⟨2, 7⟩]) 2 = some 7 ∧
    (∃ q, ltFind (ltSync [⟨1, 3, 10⟩] [⟨1, 5⟩, ⟨2, 7⟩]).openPos 1 = some q ∧
      (10:ℚ) ≤ q.peak_pnl) ∧
    (∃ q, ltFind (ltSync [⟨1, 3, 10⟩] [⟨1, 5⟩, ⟨2, 7⟩]).openPos 2 = some q ∧
      q.peak_pnl = q.pnl) :=
  ⟨C2_peak_monotone.1 _ _ 1 10 (by simp [lookupPeak]) (by simp),
   C2_peak_monotone.2.1 _ [⟨1, 5⟩, ⟨2, 7⟩] ⟨2, 7⟩ (by simp) (by simp [lookupPeak]) (by simp),
   C2_peak_monotone.2.2.1 _ _ 1 ⟨1, 3, 10⟩ rfl (by simp),
   C2_peak_monotone.2.2.2 [⟨1, 3, 10⟩] _ 2 rfl (by simp)⟩

/-- C6: the claim as stated is false.  When the broker snapshot is empty,
`LiveTrader.update_open_positions_pnl` takes the early-return branch
(live_trader.py lines 143-147): the tracked position with ticket 1 is
dropped from the open list but is appended to the closed-trade archive zero
times, and realized P&L is left unchanged — contradicting "appended exactly
once with its last P&L counted as realized". -/
theorem C6_counterexample :
    (ltSync [⟨1, 5, 5⟩] []).openPos = [] ∧
    (ltSync [⟨1, 5, 5⟩] []).closedAppend = [] ∧
    (ltSync [⟨1, 5, 5⟩] []).realizedDelta = 0 :=
  ⟨rfl, rfl, rfl⟩

/-- C6 (amended): when the broker snapshot is non-empty, every tracked
position whose ticket is absent from it is removed from the open list and
appended exactly once to the closed-trade archive, and the amount added to
the cumulative realized P&L is exactly the sum of the last known P&L of the
archived positions.  (When the snapshot is empty, all tracked positions are
dropped without being archived; `PortfolioManager.update_portfolio_state`
deletes absent tickets without archiving at all.) -/
theorem C6_amended :
    ∀ (old : List LTRecord) (snap : List SnapPos) (p : LTRecord),
      snap ≠ [] → (old.map LTRecord.ticket).Nodup → p ∈ old →
      p.ticket ∉ snap.map SnapPos.ticket →
      ((∀ q ∈ (ltSync old snap).openPos, q.ticket ≠ p.ticket) ∧
       (ltSync old snap).closedAppend.countP (fun q => q.ticket == p.ticket) = 1 ∧
       p ∈ (ltSync old snap).closedAppend ∧
       (ltSync old snap).realizedDelta =
         (((ltSync old snap).closedAppend).map LTRecord.pnl).sum) := by
  intro old snap p hne hnd hp habs
  rw [ltSync_of_nonempty old hne]
  refine ⟨?_, ?_, ?_, rfl⟩
  · intro q hq
    dsimp only at hq
    obtain ⟨s, hs, rfl⟩ := List.mem_map.1 hq
    rw [ltSyncRow_ticket]
    intro hc
    exact habs (hc ▸ List.mem_map_of_mem _ hs)
  · dsimp only
    rw [List.countP_filter]
    rw [List.countP_congr (q := fun q => q.ticket == p.ticket) ?_]
    · exact countP_ticket_eq_one hnd hp
    · intro a _
      simp only [Bool.and_eq_true]
      constructor
      · exact fun hA => hA.1
      · intro hA
        refine ⟨hA, ?_⟩
        have hat : a.ticket = p.ticket := by simpa using hA
        simp [hat, habs]
  · dsimp only
    exact List.mem_filter.2 ⟨hp, by simp [habs]⟩

/-- C6 witness: the amended theorem at a concrete sync.  Ticket 1 is absent
from the snapshot `[⟨2, 6⟩]`: it leaves the open list, is archived exactly
once, and its P&L 5 is the realized delta. -/
theorem C6_witness :
    (∀ q ∈ (ltSync [⟨1, 5, 5⟩, ⟨2, 4, 9⟩] [⟨2, 6⟩]).openPos,
       q.ticket ≠ (⟨1, 5, 5⟩ : LTRecord).ticket) ∧
    (ltSync [⟨1, 5, 5⟩, ⟨2, 4, 9⟩] [⟨2, 6⟩]).closedAppend.countP
      (fun q => q.ticket == (⟨1, 5, 5⟩ : LTRecord).ticket) = 1 ∧
    (⟨1, 5, 5⟩ : LTRecord) ∈ (ltSync [⟨1, 5, 5⟩, ⟨2, 4, 9⟩] [⟨2, 6⟩]).closedAppend ∧
    (ltSync [⟨1, 5, 5⟩, ⟨2, 4, 9⟩] [⟨2, 6⟩]).realizedDelta =
      (((ltSync [⟨1, 5, 5⟩, ⟨2, 4, 9⟩] [⟨2, 6⟩]).closedAppend).map LTRecord.pnl).sum :=
  C6_amended _ _ _ (by simp) (by simp) (by simp) (by simp)

/-- C3: the claim as stated is false.  In a cycle with one open position and
the equity stop breached, the trace starts with the reinforcement-analysis
step and only then issues the close instruction: reinforcement analysis runs
before the liquidation, contradicting "the engine must close every open
position before any other decision logic runs". -/
theorem C3_counterexample :
    decisionPhaseTrace [7] true true false =
      [CycleEvent.reinforcementAnalysis, CycleEvent.closeInstruction 7] ∧
    CycleEvent.reinforcementAnalysis ≠ CycleEvent.closeInstruction 7 := by
  exact ⟨rfl, by decide⟩

/-- C3 (amended): when the equity stop is breached (with account data
available and at least one open position), every open position receives a
close instruction and the cycle ends before the session-end check, the
per-position analysis loop, the decision-agent workflow and the new-trade
dispatch — but after the reinforcement analysis, which always runs first. -/
theorem C3_amended :
    ∀ (ts : List Nat) (sessionEnd : Bool), ts ≠ [] →
      (decisionPhaseTrace ts true true sessionEnd =
        CycleEvent.reinforcementAnalysis :: ts.map CycleEvent.closeInstruction ∧
      (∀ t ∈ ts, CycleEvent.closeInstruction t ∈ decisionPhaseTrace ts true true sessionEnd) ∧
      CycleEvent.sessionEndCheck ∉ decisionPhaseTrace ts true true sessionEnd ∧
      CycleEvent.agentWorkflow ∉ decisionPhaseTrace ts true true sessionEnd ∧
      CycleEvent.tradeDispatch ∉ decisionPhaseTrace ts true true sessionEnd) := by
  intro ts se hne
  have htr : decisionPhaseTrace ts true true se =
      CycleEvent.reinforcementAnalysis :: ts.map CycleEvent.closeInstruction := by
    rw [decisionPhaseTrace, if_neg (by simp [List.isEmpty_iff, hne])]
    simp
  refine ⟨htr, ?_, ?_, ?_, ?_⟩
  · intro t ht
    rw [htr]
    exact List.mem_cons_of_mem _ (List.mem_map_of_mem _ ht)
  · rw [htr]
    simp
  · rw [htr]
    simp
  · rw [htr]
    simp

/-- C3 witness: the amended theorem at a concrete breached cycle with two
open positions. -/
theorem C3_witness :
    decisionPhaseTrace [7, 9] true true false =
      CycleEvent.reinforcementAnalysis :: [7, 9].map CycleEvent.closeInstruction ∧
    (∀ t ∈ [7, 9], CycleEvent.closeInstruction t ∈ decisionPhaseTrace [7, 9] true true false) ∧
    CycleEvent.sessionEndCheck ∉ decisionPhaseTrace [7, 9] true true false ∧
    CycleEvent.agentWorkflow ∉ decisionPhaseTrace [7, 9] true true false ∧
    CycleEvent.tradeDispatch ∉ decisionPhaseTrace [7, 9] true true false :=
  C3_amended [7, 9] false (by simp)

/-- C7: with valid quote data (`spread = ask - bid ≥ 0`), both entry-price
routines return a limit price within two spreads of the market price for
every possible adjustment: a BUY price never exceeds `ask + 2*spread` and a
SELL price is never below `bid - 2*spread`. -/
theorem C7_entry_price_clamped :
    ∀ (bid ask spread adj : ℚ), spread = ask - bid → 0 ≤ spread →
      (ufoEntryPrice .buy bid ask spread adj ≤ ask + 2 * spread ∧
       bid - 2 * spread ≤ ufoEntryPrice .sell bid ask spread adj ∧
       ufoOptimizedEntryPrice .buy bid ask spread adj ≤ ask + 2 * spread ∧
       bid - 2 * spread ≤ ufoOptimizedEntryPrice .sell bid ask spread adj) := by
  intro bid ask spread adj hs h0
  have hba : bid ≤ ask := by linarith
  refine ⟨?_, ?_, ?_, ?_⟩
  · show max (min (ask + adj) (ask + spread * (3/2))) (bid - spread * (1/2)) ≤
      ask + 2 * spread
    apply max_le
    · exact le_trans (min_le_right _ _) (by linarith)
    · linarith
  · show bid - 2 * spread ≤
      min (max (bid + adj) (bid - spread * (3/2))) (ask + spread * (1/2))
    apply le_min
    · exact le_trans (by linarith) (le_max_right _ _)
    · linarith
  · show min (ask + adj) (ask + spread * 2) ≤ ask + 2 * spread
    exact le_trans (min_le_right _ _) (by linarith)
  · show bid - 2 * spread ≤ max (bid + adj) (bid - spread * 2)
    exact le_trans (by linarith) (le_max_right _ _)

/-- C7 witness: the theorem at a concrete quote (bid 100, ask 102,
spread 2) and a wild adjustment of 50. -/
theorem C7_witness :
    ((2:ℚ) = 102 - 100 ∧ (0:ℚ) ≤ 2) ∧
    (ufoEntryPrice .buy 100 102 2 50 ≤ 102 + 2 * 2 ∧
     100 - 2 * 2 ≤ ufoEntryPrice .sell 100 102 2 50 ∧
     ufoOptimizedEntryPrice .buy 100 102 2 50 ≤ 102 + 2 * 2 ∧
     100 - 2 * 2 ≤ ufoOptimizedEntryPrice .sell 100 102 2 50) :=
  ⟨⟨by norm_num, by norm_num⟩, C7_entry_price_clamped 100 102 2 50 (by norm_num) (by norm_num)⟩

/-- C9: the claim as stated is false.  When only half a second remains until
the next cycle, the computed sleep is the 1-second floor, which exceeds
`min(cap, time remaining) = 1/2`: the sleep is not "at most the minimum of
the cap and the positive time remaining". -/
theorem C9_counterexample :
    sleepDuration false 300 (1/2) = 1 ∧ ¬ (sleepDuration false 300 (1/2) ≤ 1/2) := by
  constructor
  · norm_num [sleepDuration]
  · norm_num [sleepDuration]

/-- C9 (amended): the computed sleep is `min(cap, max(1, remaining))` where
the cap is the monitoring period when monitoring is active (and 60 seconds
otherwise); provided the cap is at least 1 second the sleep is at least 1
second and at most the cap, and it is at most the time remaining whenever at
least 1 second remains — when less than 1 second remains the 1-second
anti-busy-loop floor prevails over the remaining time. -/
theorem C9_amended :
    ∀ (monitoring : Bool) (p t : ℚ), 1 ≤ p →
      (1 ≤ sleepDuration monitoring p t ∧
       sleepDuration monitoring p t ≤ (if monitoring then p else 60) ∧
       (1 ≤ t → sleepDuration monitoring p t ≤ t)) := by
  intro mon p t hp
  cases mon
  case false =>
    refine ⟨le_min (by norm_num) (le_max_left _ _), min_le_left _ _, ?_⟩
    intro ht
    exact le_trans (min_le_right _ _) (max_le ht (le_refl t))
  case true =>
    refine ⟨le_min hp (le_max_left _ _), min_le_left _ _, ?_⟩
    intro ht
    exact le_trans (min_le_right _ _) (max_le ht (le_refl t))

/-- C9 witness: the amended theorem at monitoring period 300s with 100s
remaining. -/
theorem C9_witness :
    1 ≤ sleepDuration true 300 100 ∧
    sleepDuration true 300 100 ≤ (if true then (300:ℚ) else 60) ∧
    (1 ≤ (100:ℚ) → sleepDuration true 300 100 ≤ 100) :=
  C9_amended true 300 100 (by norm_num)

/-- C8: the claim as stated is false in its logging part.  A payload that
contains no parseable JSON action list at all (no brace-delimited block,
e.g. `NO ACTION`) leads to zero trades and no exception, but the problem is
not logged: the `if json_match:` body is simply skipped. -/
theorem C8_counterexample :
    executeTradePlan (fun _ => none) ("NO ACTION".toList) = ⟨0, false, false⟩ := rfl

/-- C8 (amended): for every payload, if no brace-delimited block is found
then zero trades are executed, nothing is raised to the caller — and nothing
is logged; if a block is found but fails to parse, zero trades are executed,
the error is logged, and nothing is raised. -/
theorem C8_amended :
    ∀ (jsonParse : List Char → Option (List TradeAction)) (payload : List Char),
      (extractJson payload = none →
        executeTradePlan jsonParse payload = ⟨0, false, false⟩) ∧
      (∀ js, extractJson payload = some js → jsonParse js = none →
        executeTradePlan jsonParse payload = ⟨0, true, false⟩) := by
  intro jp payload
  constructor
  · intro h
    simp [executeTradePlan, h]
  · intro js h hp
    simp [executeTradePlan, h, hp]

/-- C8 witness: the amended theorem at a brace-free payload and at a payload
whose extracted block fails to parse. -/
theorem C8_witness :
    executeTradePlan (fun _ => none) ['h', 'o', 'l', 'd'] = ⟨0, false, false⟩ ∧
    executeTradePlan (fun _ => none) [braceOpen, 'y', braceClose] = ⟨0, true, false⟩ :=
  ⟨(C8_amended (fun _ => none) ['h', 'o', 'l', 'd']).1 rfl,
   (C8_amended (fun _ => none) [braceOpen, 'y', braceClose]).2
     [braceOpen, 'y', braceClose] rfl rfl⟩

/-- C10: `get_config_value` never raises (each branch of the type dispatch
is a total function, with the `except` path returning the default); it
strips everything after the first `#` and the surrounding whitespace from
the raw string (the cleaned string contains no `#`, is a subsequence of the
raw string, and starts and ends with non-whitespace); for an `int` or
`float` default whose cleaned string fails to parse it returns the given
default unchanged; and for a `bool` default it returns `true` exactly when
the cleaned, lowercased string is one of `true`, `yes`, `1`, `on`,
`enabled`. -/
theorem C10_get_config_value :
    ∀ (cfg : List Char → List Char → Option (List Char)) (sec key : List Char),
      (∀ d : Int, pyParseInt (stripComment ((cfg sec key).getD (pyStrInt d))) = none →
        getConfigValueInt cfg sec key d = d) ∧
      (∀ d : ℚ, pyParseFloat (stripComment ((cfg sec key).getD (pyStrFloat d))) = none →
        getConfigValueFloat cfg sec key d = d) ∧
      (∀ d : Bool, getConfigValueBool cfg sec key d = true ↔
        ((stripComment ((cfg sec key).getD (pyStrBool d))).map Char.toLower) ∈
          ["true".toList, "yes".toList, "1".toList, "on".toList, "enabled".toList]) ∧
      (∀ raw : List Char,
        '#' ∉ stripComment raw ∧ (stripComment raw).Sublist raw ∧
        (∀ c, (stripComment raw).head? = some c → c.isWhitespace = false) ∧
        (∀ c, (stripComment raw).getLast? = some c → c.isWhitespace = false)) := by
  intro cfg sec key
  refine ⟨?_, ?_, ?_, ?_⟩
  · intro d h
    simp [getConfigValueInt, h]
  · intro d h
    simp [getConfigValueFloat, h]
  · intro d
    simp [getConfigValueBool]
  · intro raw
    exact ⟨stripComment_no_hash raw, stripComment_sublist raw,
      stripComment_head raw, stripComment_getLast raw⟩

/-- C10 witness: the theorem at concrete configs — an unparseable value
falls back to the int/float default, `" True # comment"` parses as the
boolean `true`, and comment/whitespace stripping behaves on `" a#b "`. -/
theorem C10_witness :
    getConfigValueInt (fun _ _ => some ("n/a".toList)) ("trading".toList)
      ("max_position_duration_hours".toList) 4 = 4 ∧
    getConfigValueFloat (fun _ _ => some ("n/a".toList)) ("trading".toList)
      ("profit_target".toList) 75 = 75 ∧
    getConfigValueBool (fun _ _ => some (" True # comment".toList)) ("trading".toList)
      ("enable_trailing_stop".toList) false = true ∧
    '#' ∉ stripComment (" a#b ".toList) ∧
    Char.isWhitespace 'a' = false :=
  ⟨(C10_get_config_value _ _ _).1 4 (by decide),
   (C10_get_config_value _ _ _).2.1 75 (by decide),
   ((C10_get_config_value _ _ _).2.2.1 false).mpr (by decide),
   ((C10_get_config_value (fun _ _ => none) [] []).2.2.2 (" a#b ".toList)).1,
   ((C10_get_config_value (fun _ _ => none) [] []).2.2.2 (" a#b ".toList)).2.2.1 'a'
     (by decide)⟩
